import Mathlib

/-!
Shallow embedding of the collaborative-editing core of this repository:
the OT transformer, editor state, operation history, cursor tracker,
rate limiter and the collaboration service, translated from
`src/core/domain/src/collaboration`.  Content buffers are `List Char`
(a flat code-unit view of the JS string), machine numbers are `Nat`
(all quantities in the source are validated non-negative integers),
JS `Map`s are association lists, thrown exceptions are explicit error
values, and `Date.now()` is an explicit `now : Nat` parameter.
-/

/-- JS strings in identifier/comparison position, modeled as their code-unit
lists so that lexicographic comparison and prefix tests compute. -/
abbrev Str := List Char

/-- The two operation kinds of `OperationSchema` (`collaboration.schemas.ts`). -/
inductive OpType where
  | insert
  | delete
deriving DecidableEq, Repr

/-- Collaboration modes (`collaboration.constants.ts`). -/
inductive CollaborationMode where
  | active
  | read_only
  | disconnected
deriving DecidableEq, Repr

/-- Error taxonomy of `collaboration.errors.ts`, restricted to the kinds the
engine layer can raise. -/
inductive CollabError where
  | operationApplyError
  | invalidCursorPositionError
  | versionConflictError
  | collaborationDisabledError
  | operationBatchValidationError
  | rateLimitError
deriving DecidableEq, Repr

/-- `OperationDto` of `collaboration.schemas.ts`: `position`, `length` and
`version` are validated non-negative integers, `content` is `string | null`. -/
structure Operation where
  id : Str
  type : OpType
  position : Nat
  content : Option (List Char)
  length : Nat
  clientId : Str
  timestamp : Nat
  version : Nat
deriving DecidableEq, Repr

/-- `CursorPositionDto`. -/
structure CursorPosition where
  line : Nat
  column : Nat
deriving DecidableEq, Repr

/-- `SelectionDto`. -/
structure Selection where
  start : CursorPosition
  «end» : CursorPosition
deriving DecidableEq, Repr

/-- `RemoteUserDto`. -/
structure RemoteUser where
  id : Str
  name : Str
  color : Str
  cursor : Option CursorPosition
  selection : Option Selection
  isActive : Bool
  lastSeen : Nat
deriving DecidableEq, Repr

/-- `OperationBatchDto`. -/
structure OperationBatch where
  id : Str
  operations : List Operation
  clientId : Str
  timestamp : Nat
  baseVersion : Nat
deriving DecidableEq, Repr

/-- `EditorSnapshotDto`. -/
structure EditorSnapshot where
  id : Str
  content : List Char
  version : Nat
  timestamp : Nat
  clientId : Str
deriving DecidableEq, Repr

namespace OTTransformer

/-- `against.content?.length || 0` — the shift contributed by an insert's
content (`0` for a `null` content). -/
def insLen (o : Operation) : Nat := (o.content.getD []).length

/-- `OTTransformer.transformInsertInsert` (`OTTransformer.ts:40-63`). -/
def transformInsertInsert (op against : Operation) : Operation :=
  if op.position < against.position then op
  else if op.position > against.position then
    { op with position := op.position + insLen against }
  else if op.clientId < against.clientId then op
  else { op with position := op.position + insLen against }

/-- `OTTransformer.transformInsertDelete` (`OTTransformer.ts:65-86`). -/
def transformInsertDelete (op against : Operation) : Operation :=
  if op.position ≤ against.position then op
  else if op.position ≥ against.position + against.length then
    { op with position := op.position - against.length }
  else { op with position := against.position }

/-- `OTTransformer.transformDeleteInsert` (`OTTransformer.ts:88-110`). -/
def transformDeleteInsert (op against : Operation) : Operation :=
  if op.position + op.length ≤ against.position then op
  else if op.position ≥ against.position then
    { op with position := op.position + insLen against }
  else { op with length := op.length + insLen against }

/-- `OTTransformer.transformDeleteDelete` (`OTTransformer.ts:112-154`). -/
def transformDeleteDelete (op against : Operation) : Operation :=
  if op.position + op.length ≤ against.position then op
  else if op.position ≥ against.position + against.length then
    { op with position := op.position - against.length }
  else if op.position ≤ against.position ∧
      op.position + op.length ≥ against.position + against.length then
    { op with length := op.length - against.length }
  else if op.position ≥ against.position ∧
      op.position + op.length ≤ against.position + against.length then
    { op with position := against.position, length := 0 }
  else if op.position < against.position ∧
      op.position + op.length > against.position then
    { op with length := op.length - (op.position + op.length - against.position) }
  else
    { op with
      position := against.position,
      length := op.length - (against.position + against.length - op.position) }

/-- `OTTransformer.transform` (`OTTransformer.ts:10-30`).  The `try/catch`
wrapper of the source is dead in this embedding: every branch is total
arithmetic on `Nat`. -/
def transform (op against : Operation) : Operation :=
  match op.type, against.type with
  | OpType.insert, OpType.insert => transformInsertInsert op against
  | OpType.insert, OpType.delete => transformInsertDelete op against
  | OpType.delete, OpType.insert => transformDeleteInsert op against
  | OpType.delete, OpType.delete => transformDeleteDelete op against

/-- `OTTransformer.transformAgainstMany` (`OTTransformer.ts:32-38`). -/
def transformAgainstMany (op : Operation) (others : List Operation) : Operation :=
  others.foldl transform op

end OTTransformer

/-- `EditorState` (`EditorState.ts`): content buffer, applied-operation log,
undo/redo stacks, version counter, mode. -/
structure EditorState where
  content : List Char
  operations : List Operation
  undoStack : List Operation
  redoStack : List Operation
  version : Nat
  mode : CollaborationMode
  isTransforming : Bool
deriving DecidableEq, Repr

namespace EditorState

/-- `new EditorState(initialContent)`. -/
def create (initialContent : List Char) : EditorState :=
  { content := initialContent
    operations := []
    undoStack := []
    redoStack := []
    version := 0
    mode := CollaborationMode.active
    isTransforming := false }

/-- `EditorState.applyOperation` (`EditorState.ts:18-54`).  The JS falsy
check `!operation.content` rejects both `null` and the empty string. -/
def applyOperation (es : EditorState) (op : Operation) :
    Except CollabError EditorState :=
  if es.mode = CollaborationMode.disconnected then
    Except.error CollabError.operationApplyError
  else
    match op.type with
    | OpType.insert =>
      if es.content.length < op.position then
        Except.error CollabError.invalidCursorPositionError
      else if op.content.getD [] = [] then
        Except.error CollabError.operationApplyError
      else
        Except.ok { es with
          content := es.content.take op.position ++ op.content.getD [] ++
            es.content.drop op.position
          operations := es.operations ++ [op]
          version := max es.version (op.version + 1)
          redoStack := [] }
    | OpType.delete =>
      if es.content.length < op.position + op.length then
        Except.error CollabError.invalidCursorPositionError
      else
        Except.ok { es with
          content := es.content.take op.position ++
            es.content.drop (op.position + op.length)
          operations := es.operations ++ [op]
          version := max es.version (op.version + 1)
          redoStack := [] }

/-- `EditorState.reset` (`EditorState.ts:139-147`). -/
def reset (_es : EditorState) : EditorState := create []

end EditorState

/-- `OperationHistory` (`OperationHistory.ts`): append-only operation log
plus a version counter. -/
structure OperationHistory where
  operations : List Operation
  version : Nat
deriving DecidableEq, Repr

namespace OperationHistory

/-- A freshly constructed history. -/
def empty : OperationHistory := { operations := [], version := 0 }

/-- `OperationHistory.addOperation` (`OperationHistory.ts:14-17`). -/
def addOperation (h : OperationHistory) (op : Operation) : OperationHistory :=
  { operations := h.operations ++ [op]
    version := max h.version (op.version + 1) }

/-- `OperationHistory.addOperations` (`OperationHistory.ts:19-23`). -/
def addOperations (h : OperationHistory) (ops : List Operation) : OperationHistory :=
  ops.foldl addOperation h

/-- `OperationHistory.clear` (`OperationHistory.ts:64-67`). -/
def clear (_h : OperationHistory) : OperationHistory := empty

/-- `OperationHistory.rebase` (`OperationHistory.ts:81-85`). -/
def rebase (h : OperationHistory) (fromVersion toVersion : Nat)
    (newOperations : List Operation) : OperationHistory :=
  { operations := h.operations.filter (fun op => op.version < fromVersion) ++
      newOperations
    version := toVersion }

/-- `OperationHistory.getVersion`. -/
def getVersion (h : OperationHistory) : Nat := h.version

end OperationHistory

/-- `max(op.version + 1 for op in history) || 0 if empty` — the quantity the
spec's history invariant compares the version counter with. -/
def maxVersionPlusOne (ops : List Operation) : Nat :=
  ops.foldr (fun op acc => max (op.version + 1) acc) 0

/-- The spec's history invariant (§3 invariant 1). -/
def histInvariant (h : OperationHistory) : Prop :=
  h.version = maxVersionPlusOne h.operations

instance (h : OperationHistory) : Decidable (histInvariant h) := by
  unfold histInvariant; infer_instance

/-- One externally observable `OperationHistory` call. -/
inductive HistoryCall where
  | add (op : Operation)
  | addMany (ops : List Operation)
  | rebaseCall (fromVersion toVersion : Nat) (newOps : List Operation)
  | clearCall
deriving DecidableEq, Repr

/-- Run one call against a history. -/
def runHistoryCall (h : OperationHistory) : HistoryCall → OperationHistory
  | HistoryCall.add op => h.addOperation op
  | HistoryCall.addMany ops => h.addOperations ops
  | HistoryCall.rebaseCall f t ops => h.rebase f t ops
  | HistoryCall.clearCall => h.clear

/-- Run a sequence of calls starting from the empty history. -/
def runHistoryCalls (calls : List HistoryCall) : OperationHistory :=
  calls.foldl runHistoryCall OperationHistory.empty

/-- `CursorTracker` (`CursorTracker.ts`): per-editor `userId → RemoteUser`
registry, as an association list in `Map` insertion order. -/
structure CursorTracker where
  remoteUsers : List (Str × RemoteUser)
deriving DecidableEq, Repr

/-- `Map.set`-style insertion into an association list: replace in place if
the key is present, append otherwise. -/
def assocSet {κ β : Type} [DecidableEq κ] (l : List (κ × β)) (k : κ) (v : β) :
    List (κ × β) :=
  match l with
  | [] => [(k, v)]
  | (k', v') :: rest =>
    if k' = k then (k, v) :: rest else (k', v') :: assocSet rest k v

/-- `Map.get`-style lookup in an association list. -/
def assocGet {κ β : Type} [DecidableEq κ] (l : List (κ × β)) (k : κ) : Option β :=
  match l with
  | [] => none
  | (k', v') :: rest => if k' = k then some v' else assocGet rest k

/-- `Map.delete`-style removal from an association list. -/
def assocDelete {κ β : Type} [DecidableEq κ] (l : List (κ × β)) (k : κ) :
    List (κ × β) :=
  l.filter (fun p => p.1 ≠ k)

namespace CursorTracker

/-- A freshly constructed tracker. -/
def empty : CursorTracker := { remoteUsers := [] }

/-- `CursorTracker.addRemoteUser` (`CursorTracker.ts:6-8`). -/
def addRemoteUser (t : CursorTracker) (user : RemoteUser) : CursorTracker :=
  { remoteUsers := assocSet t.remoteUsers user.id user }

/-- `CursorTracker.removeRemoteUser` (`CursorTracker.ts:10-12`). -/
def removeRemoteUser (t : CursorTracker) (userId : Str) : CursorTracker :=
  { remoteUsers := assocDelete t.remoteUsers userId }

/-- `CursorTracker.getAllRemoteUsers` (`CursorTracker.ts:34-36`). -/
def getAllRemoteUsers (t : CursorTracker) : List RemoteUser :=
  t.remoteUsers.map Prod.snd

/-- `CursorTracker.getActiveRemoteUsers` (`CursorTracker.ts:38-40`). -/
def getActiveRemoteUsers (t : CursorTracker) : List RemoteUser :=
  (getAllRemoteUsers t).filter (fun u => u.isActive)

/-- `CursorTracker.clearAllCursors` (`CursorTracker.ts:93-98`): nulls every
user's cursor and selection, keeping the users registered. -/
def clearAllCursors (t : CursorTracker) : CursorTracker :=
  { remoteUsers := t.remoteUsers.map
      (fun p => (p.1, { p.2 with cursor := none, selection := none })) }

end CursorTracker

/-- Per-user sliding-window state (`collaboration.rateLimiter.ts:12-15`). -/
structure UserRateLimit where
  operationTimestamps : List Nat
  lastCleanupTime : Nat
deriving DecidableEq, Repr

/-- Rate-limiter configuration (`collaboration.rateLimiter.ts:6-10`). -/
structure RateLimitConfig where
  maxOperationsPerSecond : Nat
  maxOperationsPerMinute : Nat
  windowSizeMs : Nat
deriving DecidableEq, Repr

/-- `CollaborationRateLimiter` with its per-user buckets.  `Date.now()` is
passed explicitly as `now`. -/
structure CollaborationRateLimiter where
  userLimits : List (Str × UserRateLimit)
  config : RateLimitConfig
deriving DecidableEq, Repr

namespace CollaborationRateLimiter

/-- `new CollaborationRateLimiter({})`: the defaults of the constructor. -/
def mkDefault : CollaborationRateLimiter :=
  { userLimits := []
    config :=
      { maxOperationsPerSecond := 100
        maxOperationsPerMinute := 1000
        windowSizeMs := 60000 } }

/-- `cleanupOldTimestamps` (`collaboration.rateLimiter.ts:71-80`).  Truncated
`Nat` subtraction agrees with the JS comparisons here: a negative JS
difference and a truncated-to-zero `Nat` difference fall on the same side
of both `< 10000` and `< windowSizeMs`. -/
def cleanupOldTimestamps (cfg : RateLimitConfig) (ul : UserRateLimit)
    (now : Nat) : UserRateLimit :=
  if now - ul.lastCleanupTime < 10000 then ul
  else
    { operationTimestamps :=
        ul.operationTimestamps.filter (fun ts => now - ts < cfg.windowSizeMs)
      lastCleanupTime := now }

/-- `CollaborationRateLimiter.isAllowed` (`collaboration.rateLimiter.ts:29-60`).
The source mutates the per-user bucket in place; here every exit writes the
bucket back into the map. -/
def isAllowed (rl : CollaborationRateLimiter) (userId : Str) (now : Nat) :
    Bool × CollaborationRateLimiter :=
  let ul0 :=
    match assocGet rl.userLimits userId with
    | some ul => ul
    | none => { operationTimestamps := [], lastCleanupTime := now }
  let ul := cleanupOldTimestamps rl.config ul0 now
  let recent := ul.operationTimestamps.filter (fun ts => now - ts < 1000)
  if recent.length ≥ rl.config.maxOperationsPerSecond then
    (false, { rl with userLimits := assocSet rl.userLimits userId ul })
  else if ul.operationTimestamps.length ≥ rl.config.maxOperationsPerMinute then
    (false, { rl with userLimits := assocSet rl.userLimits userId ul })
  else
    (true,
      { rl with
        userLimits := assocSet rl.userLimits userId
          { ul with operationTimestamps := ul.operationTimestamps ++ [now] } })

/-- `CollaborationRateLimiter.checkAndRecord` (`collaboration.rateLimiter.ts:62-69`). -/
def checkAndRecord (rl : CollaborationRateLimiter) (userId : Str)
    (now : Nat) : Option CollabError × CollaborationRateLimiter :=
  let r := isAllowed rl userId now
  if r.1 then (none, r.2) else (some CollabError.rateLimitError, r.2)

/-- Run `isAllowed` for one user over a sequence of call instants, collecting
the returned booleans. -/
def runAllowed (rl : CollaborationRateLimiter) (userId : Str) :
    List Nat → List Bool × CollaborationRateLimiter
  | [] => ([], rl)
  | t :: ts =>
    let r := isAllowed rl userId t
    let rest := runAllowed r.2 userId ts
    (r.1 :: rest.1, rest.2)

end CollaborationRateLimiter

/-- Domain events published to the event bus by the engine
(`collaboration.events.ts`), with their primitive payloads. -/
inductive CollabEvent where
  | operationApplied (editorId operationId clientId : Str)
      (version : Nat) (timestamp : Nat)
  | operationBatchReceived (editorId batchId clientId : Str)
      (operationCount baseVersion : Nat)
  | remoteUserConnected (editorId userId userName color : Str)
  | remoteUserDisconnected (editorId userId : Str)
  | operationConflict (editorId operationId conflictingOperationId : Str)
deriving DecidableEq, Repr

/-- `CollaborationService` (`collaboration.service.ts:35-43`): the per-editor
registries, pending cursor-broadcast timer keys (`"editorId:userId"`) and
the log of events published to the event bus. -/
structure CollaborationService where
  editorStates : List (Str × EditorState)
  operationHistories : List (Str × OperationHistory)
  cursorTrackers : List (Str × CursorTracker)
  editorSnapshots : List (Str × EditorSnapshot)
  pendingOperations : List (Str × List Operation)
  cursorBroadcastTimers : List Str
  events : List CollabEvent
deriving DecidableEq, Repr

namespace CollaborationService

/-- A freshly constructed service. -/
def empty : CollaborationService :=
  { editorStates := []
    operationHistories := []
    cursorTrackers := []
    editorSnapshots := []
    pendingOperations := []
    cursorBroadcastTimers := []
    events := [] }

/-- `CollaborationService.initializeEditor` (`collaboration.service.ts:45-52`). -/
def initializeEditor (s : CollaborationService) (editorId : Str)
    (initialContent : List Char := []) : CollaborationService :=
  if (assocGet s.editorStates editorId).isSome then s
  else
    { s with
      editorStates := assocSet s.editorStates editorId
        (EditorState.create initialContent)
      operationHistories := assocSet s.operationHistories editorId
        OperationHistory.empty
      cursorTrackers := assocSet s.cursorTrackers editorId CursorTracker.empty
      pendingOperations := assocSet s.pendingOperations editorId [] }

/-- `CollaborationService.applyOperation` (`collaboration.service.ts:54-82`).
A thrown error leaves the service unchanged (every mutation of the source
happens after all checks, and `EditorState.applyOperation` throws before
mutating), so the error exits return the input state. -/
def applyOperation (s : CollaborationService) (editorId : Str)
    (op : Operation) : CollaborationService × Option CollabError :=
  match assocGet s.editorStates editorId with
  | none => (s, some CollabError.collaborationDisabledError)
  | some es =>
    match assocGet s.operationHistories editorId with
    | none => (s, some CollabError.collaborationDisabledError)
    | some h =>
      if op.version ≠ h.getVersion then
        (s, some CollabError.versionConflictError)
      else
        match es.applyOperation op with
        | Except.error _ => (s, some CollabError.operationApplyError)
        | Except.ok es' =>
          ({ s with
            editorStates := assocSet s.editorStates editorId es'
            operationHistories := assocSet s.operationHistories editorId
              (h.addOperation op)
            events := s.events ++
              [CollabEvent.operationApplied editorId op.id op.clientId
                op.version op.timestamp] }, none)

/-- The `for (const operation of batch.operations)` loop of
`applyOperationBatch`: apply in order, stopping at the first error; the
state reached before the failing operation persists (no rollback). -/
def applyOps (s : CollaborationService) (editorId : Str) :
    List Operation → CollaborationService × Option CollabError
  | [] => (s, none)
  | op :: rest =>
    match applyOperation s editorId op with
    | (s', none) => applyOps s' editorId rest
    | (s', some e) => (s', some e)

/-- `CollaborationService.applyOperationBatch` (`collaboration.service.ts:84-112`).
`OperationBatchSize.MAX = 100`. -/
def applyOperationBatch (s : CollaborationService) (editorId : Str)
    (batch : OperationBatch) : CollaborationService × Option CollabError :=
  match assocGet s.operationHistories editorId with
  | none => (s, some CollabError.collaborationDisabledError)
  | some h =>
    if batch.baseVersion ≠ h.getVersion then
      (s, some CollabError.versionConflictError)
    else if batch.operations.length = 0 ∨ batch.operations.length > 100 then
      (s, some CollabError.operationBatchValidationError)
    else
      match applyOps s editorId batch.operations with
      | (s', none) =>
        ({ s' with events := s'.events ++
            [CollabEvent.operationBatchReceived editorId batch.id
              batch.clientId batch.operations.length batch.baseVersion] },
          none)
      | (s', some e) => (s', some e)

/-- `CollaborationService.addRemoteUser` (`collaboration.service.ts:146-158`). -/
def addRemoteUser (s : CollaborationService) (editorId : Str)
    (user : RemoteUser) : CollaborationService × Option CollabError :=
  match assocGet s.cursorTrackers editorId with
  | none => (s, some CollabError.collaborationDisabledError)
  | some t =>
    ({ s with
      cursorTrackers := assocSet s.cursorTrackers editorId
        (t.addRemoteUser user)
      events := s.events ++
        [CollabEvent.remoteUserConnected editorId user.id user.name
          user.color] }, none)

/-- `CollaborationService.getRemoteUsers` (`collaboration.service.ts:203-206`). -/
def getRemoteUsers (s : CollaborationService) (editorId : Str) :
    Except CollabError (List RemoteUser) :=
  match assocGet s.cursorTrackers editorId with
  | none => Except.error CollabError.collaborationDisabledError
  | some t => Except.ok t.getActiveRemoteUsers

/-- `CollaborationService.getEditorContent` (`collaboration.service.ts:213-216`). -/
def getEditorContent (s : CollaborationService) (editorId : Str) :
    Except CollabError (List Char) :=
  match assocGet s.editorStates editorId with
  | none => Except.error CollabError.collaborationDisabledError
  | some es => Except.ok es.content

/-- `CollaborationService.getEditorVersion` (`collaboration.service.ts:223-226`). -/
def getEditorVersion (s : CollaborationService) (editorId : Str) :
    Except CollabError Nat :=
  match assocGet s.operationHistories editorId with
  | none => Except.error CollabError.collaborationDisabledError
  | some h => Except.ok h.getVersion

/-- `CollaborationService.setEditorMode` (`collaboration.service.ts:256-259`). -/
def setEditorMode (s : CollaborationService) (editorId : Str)
    (mode : CollaborationMode) : CollaborationService × Option CollabError :=
  match assocGet s.editorStates editorId with
  | none => (s, some CollabError.collaborationDisabledError)
  | some es =>
    ({ s with editorStates :=
        assocSet s.editorStates editorId { es with mode := mode } }, none)

/-- The pending-timer key of `scheduleCursorBroadcast`
(`collaboration.service.ts:279`). -/
def timerKey (editorId userId : Str) : Str := editorId ++ [':'] ++ userId

/-- The timer bookkeeping of `CollaborationService.scheduleCursorBroadcast`
(`collaboration.service.ts:272-304`): any pending timer for the same key is
replaced; the key is pending afterwards.  The 75 ms delay and the callback
are not part of this state model. -/
def scheduleCursorBroadcast (s : CollaborationService)
    (editorId userId : Str) : CollaborationService :=
  { s with cursorBroadcastTimers :=
      (s.cursorBroadcastTimers.filter (fun k => k ≠ timerKey editorId userId))
        ++ [timerKey editorId userId] }

/-- `CollaborationService.clearCursorBroadcast` (`collaboration.service.ts:306-313`). -/
def clearCursorBroadcast (s : CollaborationService)
    (editorId userId : Str) : CollaborationService :=
  { s with cursorBroadcastTimers :=
      s.cursorBroadcastTimers.filter (fun k => k ≠ timerKey editorId userId) }

/-- `CollaborationService.reset` (`collaboration.service.ts:315-341`): resets
the editor state, clears the history, nulls all cursors in the tracker,
drops the snapshot and pending operations, and cancels every pending timer
whose key starts with `editorId`. -/
def reset (s : CollaborationService) (editorId : Str) :
    CollaborationService :=
  let s1 :=
    match assocGet s.editorStates editorId with
    | none => s
    | some es =>
      { s with editorStates := assocSet s.editorStates editorId es.reset }
  let s2 :=
    match assocGet s1.operationHistories editorId with
    | none => s1
    | some h =>
      { s1 with operationHistories :=
          assocSet s1.operationHistories editorId h.clear }
  let s3 :=
    match assocGet s2.cursorTrackers editorId with
    | none => s2
    | some t =>
      { s2 with cursorTrackers :=
          assocSet s2.cursorTrackers editorId t.clearAllCursors }
  { s3 with
    editorSnapshots := assocDelete s3.editorSnapshots editorId
    pendingOperations := assocDelete s3.pendingOperations editorId
    cursorBroadcastTimers :=
      s3.cursorBroadcastTimers.filter (fun k => !(editorId.isPrefixOf k)) }

end CollaborationService

/-! ### Claim-level helper definitions and concrete inputs -/

/-- In-bounds per the data-model invariant (spec §3 invariant 3): an insert
position lies within the content, a delete range lies within the content. -/
def inBounds (s : List Char) (op : Operation) : Prop :=
  match op.type with
  | OpType.insert => op.position ≤ s.length
  | OpType.delete => op.position + op.length ≤ s.length

instance (s : List Char) (op : Operation) : Decidable (inBounds s op) := by
  unfold inBounds; cases op.type <;> infer_instance

/-- The content transformation performed by `EditorState.applyOperation`,
with the same guard order and error values (mode aside). -/
def applyC (s : List Char) (op : Operation) : Except CollabError (List Char) :=
  match op.type with
  | OpType.insert =>
    if s.length < op.position then
      Except.error CollabError.invalidCursorPositionError
    else if op.content.getD [] = [] then
      Except.error CollabError.operationApplyError
    else
      Except.ok (s.take op.position ++ op.content.getD [] ++ s.drop op.position)
  | OpType.delete =>
    if s.length < op.position + op.length then
      Except.error CollabError.invalidCursorPositionError
    else
      Except.ok (s.take op.position ++ s.drop (op.position + op.length))

/-- Apply `first` then `second` to a fresh editor holding `s`, returning the
final content. -/
def applyPair (s : List Char) (first second : Operation) :
    Except CollabError (List Char) :=
  ((EditorState.create s).applyOperation first).bind
    (fun es => es.applyOperation second) |>.map (fun es => es.content)

/-- `a` is an insert falling strictly inside the range deleted by `b`. -/
def insideDelete (a b : Operation) : Prop :=
  a.type = OpType.insert ∧ b.type = OpType.delete ∧
  b.position < a.position ∧ a.position < b.position + b.length

instance (a b : Operation) : Decidable (insideDelete a b) := by
  unfold insideDelete; infer_instance

/-- Whether a history call is a `rebase`. -/
def isRebaseCall : HistoryCall → Bool
  | HistoryCall.rebaseCall _ _ _ => true
  | _ => false

/-- Insert `"A"` at position 0 by client `c1` (spec scenario S3). -/
def s3InsertA : Operation :=
  { id := "a".data, type := OpType.insert, position := 0, content := some ['A']
    length := 0, clientId := "c1".data, timestamp := 0, version := 0 }

/-- Insert `"B"` at position 0 by client `c2` (spec scenario S3). -/
def s3InsertB : Operation :=
  { id := "b".data, type := OpType.insert, position := 0, content := some ['B']
    length := 0, clientId := "c2".data, timestamp := 0, version := 0 }

/-- Insert `"X"` at position 2 by `c1`: one half of the TP1 counterexample. -/
def tp1Insert : Operation :=
  { id := "x".data, type := OpType.insert, position := 2, content := some ['X']
    length := 0, clientId := "c1".data, timestamp := 0, version := 0 }

/-- Delete 2 characters at position 1 by `c2`: the other half of the TP1
counterexample — `tp1Insert` lands strictly inside this range. -/
def tp1Delete : Operation :=
  { id := "d".data, type := OpType.delete, position := 1, content := none
    length := 2, clientId := "c2".data, timestamp := 0, version := 0 }

/-- A read-only editor over empty content. -/
def roState : EditorState :=
  { EditorState.create [] with mode := CollaborationMode.read_only }

/-- The insert the repository's own test applies in read-only mode
(`collaboration.spec.ts:441-464`). -/
def roInsert : Operation :=
  { id := "op-1".data, type := OpType.insert, position := 0
    content := some "text".data, length := 0, clientId := "client-1".data
    timestamp := 0, version := 0 }

/-- The insert of the repository's reset test (`collaboration.spec.ts:540-549`). -/
def resetInsert : Operation :=
  { id := "op-1".data, type := OpType.insert, position := 7
    content := some " Content".data, length := 0, clientId := "client-1".data
    timestamp := 0, version := 0 }

/-- The active remote user of the repository's reset test
(`collaboration.spec.ts:553-561`). -/
def resetUser : RemoteUser :=
  { id := "user-1".data, name := "Alice".data, color := "#FF0000".data, cursor := none
    selection := none, isActive := true, lastSeen := 0 }

/-- The service state of the reset scenario just before `reset`: editor
initialized with `"Initial"`, one insert applied, one active remote user,
one pending cursor-broadcast timer. -/
def resetServiceBefore : CollaborationService :=
  CollaborationService.scheduleCursorBroadcast
    ((CollaborationService.addRemoteUser
      ((CollaborationService.empty.initializeEditor "e1".data
          "Initial".data).applyOperation "e1".data resetInsert).1
      "e1".data resetUser).1)
    "e1".data "user-1".data

/-- The reset scenario after `reset("e1")`. -/
def resetServiceAfter : CollaborationService :=
  resetServiceBefore.reset "e1".data

/-- A service with one freshly initialized empty editor `"e1"`. -/
def oneEditorService : CollaborationService :=
  CollaborationService.empty.initializeEditor "e1".data []

/-- An operation whose base version 1 conflicts with a fresh history. -/
def staleOp : Operation :=
  { id := "op-9".data, type := OpType.insert, position := 0
    content := some ['Z'], length := 0, clientId := "client-1".data
    timestamp := 0, version := 1 }

/-- Scenario S5's first batch operation: insert `"ABC"` at 0, version 0. -/
def s5Op1 : Operation :=
  { id := "b1".data, type := OpType.insert, position := 0, content := some "ABC".data
    length := 0, clientId := "client-1".data, timestamp := 0, version := 0 }

/-- Scenario S5's second batch operation: insert `"DEF"` at 3, version 1. -/
def s5Op2 : Operation :=
  { id := "b2".data, type := OpType.insert, position := 3, content := some "DEF".data
    length := 0, clientId := "client-1".data, timestamp := 0, version := 1 }

/-- Scenario S5's batch. -/
def s5Batch : OperationBatch :=
  { id := "batch-1".data, operations := [s5Op1, s5Op2], clientId := "client-1".data
    timestamp := 0, baseVersion := 0 }

/-- 101 call instants inside one second. -/
def c9Times : List Nat := (List.range 101).map (fun i => 100000 + i)

/-- An insert whose content is the empty string, at an in-bounds position. -/
def emptyInsert : Operation :=
  { id := "e".data, type := OpType.insert, position := 1, content := some []
    length := 0, clientId := "client-1".data, timestamp := 0, version := 0 }

/-- A sequence of history calls without `rebase`. -/
def c6Calls : List HistoryCall :=
  [HistoryCall.add s3InsertA, HistoryCall.addMany [s3InsertB, staleOp],
   HistoryCall.clearCall, HistoryCall.add s3InsertA]

/-- A default-configured rate limiter holding a single user's bucket. -/
def rlState (u : Str) (done : List Nat) (t1 : Nat) : CollaborationRateLimiter :=
  { userLimits := [(u, { operationTimestamps := done, lastCleanupTime := t1 })]
    config := CollaborationRateLimiter.mkDefault.config }

/-- Decidable equality of `Except` results, for evaluating the embedding on
concrete inputs. -/
def exceptDecEq {ε α : Type} [DecidableEq ε] [DecidableEq α] :
    DecidableEq (Except ε α) := fun x y =>
  match x, y with
  | Except.error e, Except.error f =>
    if h : e = f then Decidable.isTrue (by rw [h])
    else Decidable.isFalse (fun hh => h (Except.error.inj hh))
  | Except.ok a, Except.ok b =>
    if h : a = b then Decidable.isTrue (by rw [h])
    else Decidable.isFalse (fun hh => h (Except.ok.inj hh))
  | Except.error _, Except.ok _ =>
    Decidable.isFalse (fun hh => Except.noConfusion hh)
  | Except.ok _, Except.error _ =>
    Decidable.isFalse (fun hh => Except.noConfusion hh)

instance {ε α : Type} [DecidableEq ε] [DecidableEq α] : DecidableEq (Except ε α) :=
  exceptDecEq

/-! ### Theorems -/

/-- C5 counterexample: scenario S3's stated outputs are wrong on the code.
With A = insert `"A"` at 0 by `c1` and B = insert `"B"` at 0 by `c2`
(`c1 < c2`), it is not the case that `transform(A,B).position = 1` and
`transform(B,A).position = 0`. -/
theorem s3_literal_outputs_false :
    ¬ ((OTTransformer.transform s3InsertA s3InsertB).position = 1 ∧
       (OTTransformer.transform s3InsertB s3InsertA).position = 0) := by
  decide

/-- C5 amended: in scenario S3 the lexicographically smaller client `c1`
keeps its position, so `transform(A,B).position = 0` and
`transform(B,A).position = 1`. -/
theorem s3_transform_positions :
    (OTTransformer.transform s3InsertA s3InsertB).position = 0 ∧
    (OTTransformer.transform s3InsertB s3InsertA).position = 1 := by
  decide

/-- C4: for two insert operations at the same position, `transform` keeps
the operation unchanged when its `clientId` is lexicographically smaller
than the other's, and otherwise shifts its position right by the length of
the other insert's content. -/
theorem transform_insert_insert_tie (op against : Operation)
    (hop : op.type = OpType.insert) (hag : against.type = OpType.insert)
    (hpos : op.position = against.position) :
    OTTransformer.transform op against =
      if op.clientId < against.clientId then op
      else { op with
        position := op.position + (against.content.getD []).length } := by
  have ht : OTTransformer.transform op against =
      OTTransformer.transformInsertInsert op against := by
    unfold OTTransformer.transform
    rw [hop, hag]
  rw [ht]
  unfold OTTransformer.transformInsertInsert OTTransformer.insLen
  rw [hpos]
  simp

/-- C4 witness: the tie-break theorem evaluated on scenario S3's pair. -/
theorem transform_insert_insert_tie_witness :
    s3InsertA.type = OpType.insert ∧ s3InsertB.type = OpType.insert ∧
    s3InsertA.position = s3InsertB.position ∧
    OTTransformer.transform s3InsertA s3InsertB =
      if s3InsertA.clientId < s3InsertB.clientId then s3InsertA
      else { s3InsertA with position :=
        s3InsertA.position + (s3InsertB.content.getD []).length } :=
  ⟨by decide, by decide, by decide,
    transform_insert_insert_tie s3InsertA s3InsertB (by decide) (by decide)
      (by decide)⟩

/-- C2: contrary to the spec (and to the repository's own test
`cannot apply operation in read only mode`), `EditorState.applyOperation`
does not gate `READ_ONLY`: the test's insert applies successfully and
changes the content. -/
theorem readonly_insert_applies :
    roState.mode = CollaborationMode.read_only ∧
    roState.applyOperation roInsert =
      Except.ok { roState with
        content := "text".data
        operations := [roInsert]
        version := 1
        redoStack := [] } := by
  decide

/-- C1 counterexample: TP1 fails when an insert lands strictly inside a
concurrent delete's range.  On `"abcd"`, with A = insert `"X"` at 2 by `c1`
and B = delete `[1,3)` by `c2` (both in bounds, different clients, same
base version), the two application orders yield `"aXd"` and `"ad"`. -/
theorem tp1_violation :
    inBounds "abcd".data tp1Insert ∧ inBounds "abcd".data tp1Delete ∧
    tp1Insert.clientId ≠ tp1Delete.clientId ∧
    tp1Insert.version = tp1Delete.version ∧
    applyPair "abcd".data tp1Delete
        (OTTransformer.transform tp1Insert tp1Delete) =
      Except.ok "aXd".data ∧
    applyPair "abcd".data tp1Insert
        (OTTransformer.transform tp1Delete tp1Insert) =
      Except.ok "ad".data := by
  decide

/-- C3: contrary to the spec (and to the repository's own test
`reset editor clears all state`), `reset` leaves previously added active
remote users visible through `getRemoteUsers` — `clearAllCursors` only
nulls their cursors — while content, version and pending timers are
cleared as specified. -/
theorem reset_keeps_remote_users :
    CollaborationService.getEditorContent resetServiceAfter "e1".data =
      Except.ok [] ∧
    CollaborationService.getEditorVersion resetServiceAfter "e1".data =
      Except.ok 0 ∧
    resetServiceAfter.cursorBroadcastTimers = [] ∧
    CollaborationService.getRemoteUsers resetServiceAfter "e1".data =
      Except.ok [{ resetUser with cursor := none, selection := none }] ∧
    CollaborationService.getRemoteUsers resetServiceAfter "e1".data ≠
      Except.ok [] := by
  decide

/-- C10: an insert whose content is `null` or the empty string is rejected
by `EditorState.applyOperation` with `OperationApplyError`, even at an
in-bounds position. -/
theorem empty_insert_rejected (es : EditorState) (op : Operation)
    (hty : op.type = OpType.insert)
    (hc : op.content = none ∨ op.content = some [])
    (hpos : op.position ≤ es.content.length) :
    es.applyOperation op = Except.error CollabError.operationApplyError := by
  have hgetD : op.content.getD [] = [] := by rcases hc with h | h <;> simp [h]
  obtain ⟨oid, oty, opos, ocont, olen, ocid, ots, over⟩ := op
  cases hty
  by_cases h1 : es.mode = CollaborationMode.disconnected
  · simp [EditorState.applyOperation, h1]
  · have h2 : ¬ es.content.length < opos := by simp at hpos; omega
    simp at hgetD
    simp [EditorState.applyOperation, h1, h2, hgetD]

/-- C10 witness: the empty-string insert at in-bounds position 1 of `"ab"`
is rejected. -/
theorem empty_insert_rejected_witness :
    (EditorState.create "ab".data).applyOperation emptyInsert =
      Except.error CollabError.operationApplyError :=
  empty_insert_rejected (EditorState.create "ab".data) emptyInsert (by decide)
    (Or.inr (by decide)) (by decide)

lemma foldr_max_eq (l : List Operation) (b : Nat) :
    l.foldr (fun op acc => max (op.version + 1) acc) b =
      max (maxVersionPlusOne l) b := by
  induction l generalizing b with
  | nil => simp [maxVersionPlusOne]
  | cons op rest ih =>
    simp only [maxVersionPlusOne, List.foldr_cons] at *
    rw [ih]
    omega

lemma histInvariant_addOperation (h : OperationHistory) (op : Operation)
    (hh : histInvariant h) : histInvariant (h.addOperation op) := by
  unfold histInvariant OperationHistory.addOperation at *
  simp only [maxVersionPlusOne, List.foldr_append, List.foldr_cons,
    List.foldr_nil]
  rw [foldr_max_eq, hh]
  unfold maxVersionPlusOne
  omega

lemma histInvariant_addOperations (h : OperationHistory) (ops : List Operation)
    (hh : histInvariant h) : histInvariant (h.addOperations ops) := by
  induction ops generalizing h with
  | nil => exact hh
  | cons op rest ih =>
    exact ih _ (histInvariant_addOperation h op hh)

lemma histInvariant_runCall (h : OperationHistory) (c : HistoryCall)
    (hc : isRebaseCall c = false) (hh : histInvariant h) :
    histInvariant (runHistoryCall h c) := by
  cases c with
  | add op => exact histInvariant_addOperation h op hh
  | addMany ops => exact histInvariant_addOperations h ops hh
  | rebaseCall f t ops => simp [isRebaseCall] at hc
  | clearCall => exact (by decide : histInvariant OperationHistory.empty)

lemma histInvariant_foldl (calls : List HistoryCall) (h : OperationHistory)
    (hh : histInvariant h) (hall : ∀ c ∈ calls, isRebaseCall c = false) :
    histInvariant (calls.foldl runHistoryCall h) := by
  induction calls generalizing h with
  | nil => exact hh
  | cons c rest ih =>
    exact ih _ (histInvariant_runCall h c (hall c (by simp)) hh)
      (fun c' hc' => hall c' (by simp [hc']))

/-- C6 counterexample: a single `rebase(0, 5, [])` from the empty history
sets the version counter to 5 while the history is empty, violating the
stated invariant. -/
theorem history_rebase_breaks_invariant :
    ¬ histInvariant (runHistoryCalls [HistoryCall.rebaseCall 0 5 []]) := by
  decide

/-- C6 amended: after every sequence of `addOperation`, `addOperations` and
`clear` calls from the empty history, the version counter equals
`max(op.version+1)` over the stored operations (0 if empty); `rebase` sets
the counter to its `toVersion` argument unconditionally and is exempt. -/
theorem history_version_invariant (calls : List HistoryCall)
    (h : ∀ c ∈ calls, isRebaseCall c = false) :
    histInvariant (runHistoryCalls calls) :=
  histInvariant_foldl calls OperationHistory.empty (by decide) h

/-- C6 witness: the invariant theorem evaluated on a concrete rebase-free
call sequence. -/
theorem history_version_invariant_witness :
    (∀ c ∈ c6Calls, isRebaseCall c = false) ∧
    histInvariant (runHistoryCalls c6Calls) :=
  ⟨by decide, history_version_invariant c6Calls (by decide)⟩

/-- C7: on an initialized editor, `CollaborationService.applyOperation`
reports `VersionConflictError` exactly when the operation's version differs
from the history's current version, and in that case the whole service
state is unchanged. -/
theorem version_conflict_iff (s : CollaborationService) (editorId : Str)
    (op : Operation) (es : EditorState) (h : OperationHistory)
    (hes : assocGet s.editorStates editorId = some es)
    (hh : assocGet s.operationHistories editorId = some h) :
    ((CollaborationService.applyOperation s editorId op).2 =
        some CollabError.versionConflictError ↔ op.version ≠ h.getVersion) ∧
    (op.version ≠ h.getVersion →
      (CollaborationService.applyOperation s editorId op).1 = s) := by
  by_cases hv : op.version = h.getVersion
  · have hif : ¬ (op.version ≠ h.getVersion) := fun hn => hn hv
    simp only [CollaborationService.applyOperation, hes, hh, if_neg hif]
    rcases hx : es.applyOperation op with e | es' <;> simp [hv]
  · simp only [CollaborationService.applyOperation, hes, hh, if_pos hv]
    simp [hv]

/-- C7 witness: a fresh editor (history version 0) rejects an operation at
base version 1 and is left unchanged. -/
theorem version_conflict_iff_witness :
    (CollaborationService.applyOperation oneEditorService "e1".data staleOp).2 =
      some CollabError.versionConflictError ∧
    (CollaborationService.applyOperation oneEditorService "e1".data staleOp).1 =
      oneEditorService := by
  have h := version_conflict_iff oneEditorService "e1".data staleOp
    (EditorState.create []) OperationHistory.empty (by decide) (by decide)
  exact ⟨h.1.mpr (by decide), h.2 (by decide)⟩

/-- An erroring `CollaborationService.applyOperation` leaves the service
unchanged: every mutation of the source happens after all checks. -/
lemma applyOperation_fail_fix (s : CollaborationService) (eid : Str)
    (op : Operation) :
    (CollaborationService.applyOperation s eid op).2 ≠ none →
    (CollaborationService.applyOperation s eid op).1 = s := by
  unfold CollaborationService.applyOperation
  cases hx : assocGet s.editorStates eid with
  | none => simp
  | some es =>
    cases hy : assocGet s.operationHistories eid with
    | none => simp
    | some h =>
      dsimp only
      split_ifs with hv
      · simp
      · cases hz : es.applyOperation op <;> simp

/-- The batch loop applies a maximal clean prefix of the operations in
order; on failure the state reached before the failing operation persists. -/
lemma applyOps_spec (eid : Str) (ops : List Operation) :
    ∀ (s : CollaborationService),
    ∃ k s_k, k ≤ ops.length ∧
      CollaborationService.applyOps s eid (ops.take k) = (s_k, none) ∧
      ((k = ops.length ∧
        CollaborationService.applyOps s eid ops = (s_k, none)) ∨
       (k < ops.length ∧ ∃ e op' rest, ops.drop k = op' :: rest ∧
          CollaborationService.applyOperation s_k eid op' = (s_k, some e) ∧
          CollaborationService.applyOps s eid ops = (s_k, some e))) := by
  induction ops with
  | nil =>
    intro s
    exact ⟨0, s, by simp, by simp [CollaborationService.applyOps],
      Or.inl ⟨rfl, by simp [CollaborationService.applyOps]⟩⟩
  | cons op rest ih =>
    intro s
    cases hx : CollaborationService.applyOperation s eid op with
    | mk s' err =>
      cases err with
      | none =>
        obtain ⟨k, s_k, hk, htake, hrest⟩ := ih s'
        refine ⟨k + 1, s_k, by simpa using hk, ?_, ?_⟩
        · simpa [CollaborationService.applyOps, hx] using htake
        · rcases hrest with ⟨hkeq, hall⟩ | ⟨hklt, e, op', rest', hdrop, hfail, hall⟩
          · exact Or.inl ⟨by simp [hkeq],
              by simpa [CollaborationService.applyOps, hx] using hall⟩
          · exact Or.inr ⟨by simpa using hklt, e, op', rest', by simpa using hdrop,
              hfail, by simpa [CollaborationService.applyOps, hx] using hall⟩
      | some e =>
        have hfix : s' = s := by
          have h2 := applyOperation_fail_fix s eid op (by rw [hx]; simp)
          rw [hx] at h2; exact h2
        have hx2 : CollaborationService.applyOperation s eid op = (s, some e) := by
          rw [hx, hfix]
        exact ⟨0, s, by simp, by simp [CollaborationService.applyOps],
          Or.inr ⟨by simp, e, op, rest, rfl, hx2,
            by simp [CollaborationService.applyOps, hx2]⟩⟩

/-- C8: for an initialized editor and a batch whose `baseVersion` matches
the history version and whose size is in `[1,100]`, `applyOperationBatch`
applies the operations in order; if all apply, exactly one
`OperationBatchReceivedEvent` is appended after them; if one fails
mid-batch, the prefix applied before it persists (no rollback) and no
batch event is emitted. -/
theorem batch_semantics (s : CollaborationService) (editorId : Str)
    (batch : OperationBatch) (h : OperationHistory)
    (hh : assocGet s.operationHistories editorId = some h)
    (hbase : batch.baseVersion = h.getVersion)
    (hsz1 : 1 ≤ batch.operations.length)
    (hsz2 : batch.operations.length ≤ 100) :
    ∃ k s_k, k ≤ batch.operations.length ∧
      CollaborationService.applyOps s editorId (batch.operations.take k) =
        (s_k, none) ∧
      ((k = batch.operations.length ∧
        CollaborationService.applyOperationBatch s editorId batch =
          ({ s_k with events := s_k.events ++
              [CollabEvent.operationBatchReceived editorId batch.id
                batch.clientId batch.operations.length batch.baseVersion] },
            none)) ∨
       (k < batch.operations.length ∧ ∃ e op' rest,
          batch.operations.drop k = op' :: rest ∧
          CollaborationService.applyOperation s_k editorId op' = (s_k, some e) ∧
          CollaborationService.applyOperationBatch s editorId batch =
            (s_k, some e))) := by
  have hguard1 : ¬ batch.baseVersion ≠ h.getVersion := fun hn => hn hbase
  have hne : batch.operations ≠ [] := by
    intro h0; rw [h0] at hsz1; simp at hsz1
  have hgt : ¬ batch.operations.length > 100 := by omega
  obtain ⟨k, s_k, hk, htake, hrest⟩ := applyOps_spec editorId batch.operations s
  refine ⟨k, s_k, hk, htake, ?_⟩
  rcases hrest with ⟨hkeq, hall⟩ | ⟨hklt, e, op', rest', hdrop, hfail, hall⟩
  · exact Or.inl ⟨hkeq, by
      simp [CollaborationService.applyOperationBatch, hh, hguard1, hne, hgt, hall]⟩
  · exact Or.inr ⟨hklt, e, op', rest', hdrop, hfail, by
      simp [CollaborationService.applyOperationBatch, hh, hguard1, hne, hgt, hall]⟩

/-- C8 witness: scenario S5's two-insert batch on a fresh empty editor. -/
theorem batch_semantics_witness :
    ∃ k s_k, k ≤ s5Batch.operations.length ∧
      CollaborationService.applyOps oneEditorService "e1".data
        (s5Batch.operations.take k) = (s_k, none) ∧
      ((k = s5Batch.operations.length ∧
        CollaborationService.applyOperationBatch oneEditorService "e1".data
            s5Batch =
          ({ s_k with events := s_k.events ++
              [CollabEvent.operationBatchReceived "e1".data s5Batch.id
                s5Batch.clientId s5Batch.operations.length
                s5Batch.baseVersion] }, none)) ∨
       (k < s5Batch.operations.length ∧ ∃ e op' rest,
          s5Batch.operations.drop k = op' :: rest ∧
          CollaborationService.applyOperation s_k "e1".data op' =
            (s_k, some e) ∧
          CollaborationService.applyOperationBatch oneEditorService "e1".data
            s5Batch = (s_k, some e))) :=
  batch_semantics oneEditorService "e1".data s5Batch OperationHistory.empty
    (by decide) (by decide) (by decide) (by decide)

/-- One `isAllowed` call on a single-bucket default limiter, when cleanup is
skipped and every recorded timestamp is within the last second. -/
lemma isAllowed_step (u : Str) (done : List Nat) (t1 t : Nat)
    (hclean : t - t1 < 10000) (hrecent : ∀ d ∈ done, t - d < 1000) :
    CollaborationRateLimiter.isAllowed (rlState u done t1) u t =
      if 100 ≤ done.length then (false, rlState u done t1)
      else (true, rlState u (done ++ [t]) t1) := by
  have hfilter : List.filter (fun ts => decide (t - ts < 1000)) done = done :=
    List.filter_eq_self.mpr (fun a ha => by
      simp only [decide_eq_true_eq]
      exact hrecent a ha)
  unfold CollaborationRateLimiter.isAllowed rlState
    CollaborationRateLimiter.cleanupOldTimestamps
  by_cases hfull : 100 ≤ done.length
  · simp [assocGet, assocSet, hclean, hfilter, hfull,
      CollaborationRateLimiter.mkDefault]
  · have hmin : ¬ 1000 ≤ done.length := by omega
    simp [assocGet, assocSet, hclean, hfilter, hfull, hmin,
      CollaborationRateLimiter.mkDefault]

/-- The first `isAllowed` call creates the user's bucket and allows. -/
lemma isAllowed_first (u : Str) (t : Nat) :
    CollaborationRateLimiter.isAllowed CollaborationRateLimiter.mkDefault u t =
      (true, rlState u [t] t) := by
  unfold CollaborationRateLimiter.isAllowed CollaborationRateLimiter.mkDefault
    CollaborationRateLimiter.cleanupOldTimestamps rlState
  simp [assocGet, assocSet, CollaborationRateLimiter.mkDefault]

/-- Within a one-second window the default limiter allows exactly the calls
that find fewer than 100 recorded timestamps. -/
lemma runAllowed_window_aux (u : Str) (t0 t1 : Nat)
    (ht1a : t0 ≤ t1) (ht1b : t1 < t0 + 1000) :
    ∀ (ts : List Nat) (done : List Nat),
    (∀ t ∈ ts, t0 ≤ t ∧ t < t0 + 1000) →
    (∀ t ∈ done, t0 ≤ t ∧ t < t0 + 1000) →
    done.length ≤ 100 →
    (CollaborationRateLimiter.runAllowed (rlState u done t1) u ts).1
    = List.replicate (min ts.length (100 - done.length)) true ++
      List.replicate (ts.length - (100 - done.length)) false := by
  intro ts
  induction ts with
  | nil => intro done _ _ _; simp [CollaborationRateLimiter.runAllowed]
  | cons t rest ih =>
    intro done hts hdone hlen
    have htw := hts t (by simp)
    have hstep := isAllowed_step u done t1 t (by omega)
      (fun d hd => by have := hdone d hd; omega)
    simp only [CollaborationRateLimiter.runAllowed]
    rw [hstep]
    by_cases hfull : 100 ≤ done.length
    · rw [if_pos hfull]
      rw [ih done (fun t' ht' => hts t' (by simp [ht'])) hdone hlen]
      have hc0 : 100 - done.length = 0 := by omega
      simp [hc0, List.replicate_succ]
    · rw [if_neg hfull]
      rw [ih (done ++ [t])
        (fun t' ht' => hts t' (by simp [ht']))
        (fun t' ht' => by
          rcases List.mem_append.mp ht' with h | h
          · exact hdone t' h
          · simp at h; subst h; exact htw)
        (by simp; omega)]
      have e1 : min (rest.length + 1) (100 - done.length) =
          min rest.length (100 - (done.length + 1)) + 1 := by omega
      have e2 : (rest.length + 1) - (100 - done.length) =
          rest.length - (100 - (done.length + 1)) := by omega
      simp only [List.length_cons, List.length_append, List.length_singleton,
        e1, e2, List.replicate_succ, List.cons_append]
      simp

/-- C9: with the default configuration, of 101 `isAllowed` calls for one
user all occurring within one second, the first 100 return `true` and the
101st returns `false`; and `checkAndRecord` reports `RateLimitError`
exactly when the wrapped `isAllowed` call returns `false`. -/
theorem rate_limit_defaults (u : Str) (times : List Nat) (t0 : Nat)
    (hlen : times.length = 101)
    (hwin : ∀ t ∈ times, t0 ≤ t ∧ t < t0 + 1000) :
    (CollaborationRateLimiter.runAllowed CollaborationRateLimiter.mkDefault u
        times).1 = List.replicate 100 true ++ [false] ∧
    ∀ (rl : CollaborationRateLimiter) (v : Str) (n : Nat),
      (CollaborationRateLimiter.checkAndRecord rl v n).1 =
        (if (CollaborationRateLimiter.isAllowed rl v n).1 then none
         else some CollabError.rateLimitError) := by
  constructor
  · cases times with
    | nil => simp at hlen
    | cons t rest =>
      have hlr : rest.length = 100 := by simpa using hlen
      have htw := hwin t (by simp)
      simp only [CollaborationRateLimiter.runAllowed]
      rw [isAllowed_first]
      rw [runAllowed_window_aux u t0 t htw.1 htw.2 rest [t]
        (fun t' ht' => hwin t' (by simp [ht']))
        (fun t' ht' => by simp at ht'; subst ht'; exact htw)
        (by simp)]
      simp only [hlr, List.length_singleton]
      norm_num [List.replicate_succ]
  · intro rl v n
    unfold CollaborationRateLimiter.checkAndRecord
    cases h : (CollaborationRateLimiter.isAllowed rl v n).1 <;> simp [h]

/-- C9 witness: the rate-limit theorem evaluated on 101 concrete instants
within one second. -/
theorem rate_limit_defaults_witness :
    (CollaborationRateLimiter.runAllowed CollaborationRateLimiter.mkDefault
        "u1".data c9Times).1 = List.replicate 100 true ++ [false] ∧
    ∀ (rl : CollaborationRateLimiter) (v : Str) (n : Nat),
      (CollaborationRateLimiter.checkAndRecord rl v n).1 =
        (if (CollaborationRateLimiter.isAllowed rl v n).1 then none
         else some CollabError.rateLimitError) :=
  rate_limit_defaults "u1".data c9Times 100000 (by decide) (by decide)

/-- An in-bounds insert at the boundary of a prefix splices its content. -/
lemma applyC_insert_ok (x rest : List Char) (op : Operation)
    (hty : op.type = OpType.insert) (hpos : op.position = x.length)
    (hc : op.content.getD [] ≠ []) :
    applyC (x ++ rest) op = Except.ok (x ++ op.content.getD [] ++ rest) := by
  unfold applyC
  simp only [hty]
  have h1 : ¬ (x ++ rest).length < op.position := by
    simp [hpos, List.length_append]
  rw [if_neg h1, if_neg hc, hpos, List.take_left, List.drop_left]

/-- An in-bounds insert of `null`/empty content fails with
`OperationApplyError`. -/
lemma applyC_insert_err (s : List Char) (op : Operation)
    (hty : op.type = OpType.insert) (hpos : op.position ≤ s.length)
    (hc : op.content.getD [] = []) :
    applyC s op = Except.error CollabError.operationApplyError := by
  unfold applyC
  simp only [hty]
  have h1 : ¬ s.length < op.position := by omega
  rw [if_neg h1, if_pos hc]

/-- A delete spanning exactly the middle block of a three-block split
removes it. -/
lemma applyC_delete_ok (x y rest : List Char) (op : Operation)
    (hty : op.type = OpType.delete) (hpos : op.position = x.length)
    (hlen : op.length = y.length) :
    applyC (x ++ y ++ rest) op = Except.ok (x ++ rest) := by
  unfold applyC
  simp only [hty]
  have h1 : ¬ (x ++ y ++ rest).length < op.position + op.length := by
    simp [hpos, hlen, List.length_append]
  rw [if_neg h1]
  have ht : List.take op.position (x ++ y ++ rest) = x := by
    rw [List.append_assoc]
    exact List.take_left' hpos.symm
  have hd : List.drop (op.position + op.length) (x ++ y ++ rest) = rest :=
    List.drop_left' (by simp [List.length_append, hpos, hlen])
  rw [ht, hd]

/-- Split a list at one in-bounds point. -/
lemma exists_split2 (s : List Char) (p : Nat) (h : p ≤ s.length) :
    ∃ x z, s = x ++ z ∧ x.length = p :=
  ⟨s.take p, s.drop p, (List.take_append_drop p s).symm,
    by rw [List.length_take]; omega⟩

/-- Split a list at two ordered in-bounds points. -/
lemma exists_split3 (s : List Char) (p q : Nat) (h1 : p ≤ q)
    (h2 : q ≤ s.length) :
    ∃ x m z, s = x ++ m ++ z ∧ x.length = p ∧ m.length = q - p := by
  obtain ⟨x, t, hs, hx⟩ := exists_split2 s p (le_trans h1 h2)
  have hlt : q - p ≤ t.length := by
    have : s.length = x.length + t.length := by rw [hs, List.length_append]
    omega
  obtain ⟨m, z, ht, hm⟩ := exists_split2 t (q - p) hlt
  exact ⟨x, m, z, by rw [hs, ht, List.append_assoc], hx, hm⟩

/-- Split a list at three ordered in-bounds points. -/
lemma exists_split4 (s : List Char) (p q r : Nat) (h1 : p ≤ q) (h2 : q ≤ r)
    (h3 : r ≤ s.length) :
    ∃ x m y z, s = x ++ m ++ y ++ z ∧ x.length = p ∧ m.length = q - p ∧
      y.length = r - q := by
  obtain ⟨x, m, t, hs, hx, hm⟩ := exists_split3 s p q h1 (le_trans h2 h3)
  have hlt : r - q ≤ t.length := by
    have : s.length = x.length + m.length + t.length := by
      rw [hs]; simp [List.length_append]; omega
    omega
  obtain ⟨y, z, ht, hy⟩ := exists_split2 t (r - q) hlt
  exact ⟨x, m, y, z, by rw [hs, ht]; simp [List.append_assoc], hx, hm, hy⟩

/-- Split a list at four ordered in-bounds points. -/
lemma exists_split5 (s : List Char) (p q r w : Nat) (h1 : p ≤ q) (h2 : q ≤ r)
    (h3 : r ≤ w) (h4 : w ≤ s.length) :
    ∃ x m y u z, s = x ++ m ++ y ++ u ++ z ∧ x.length = p ∧ m.length = q - p ∧
      y.length = r - q ∧ u.length = w - r := by
  obtain ⟨x, m, y, t, hs, hx, hm, hy⟩ :=
    exists_split4 s p q r h1 h2 (le_trans h3 h4)
  have hlt : w - r ≤ t.length := by
    have : s.length = x.length + m.length + y.length + t.length := by
      rw [hs]; simp [List.length_append]; omega
    omega
  obtain ⟨u, z, ht, hu⟩ := exists_split2 t (w - r) hlt
  exact ⟨x, m, y, u, z, by rw [hs, ht]; simp [List.append_assoc],
    hx, hm, hy, hu⟩

/-- On an `ACTIVE` editor, `EditorState.applyOperation` performs exactly the
`applyC` content transformation, and success preserves the mode. -/
lemma applyOperation_content_map (es : EditorState) (op : Operation)
    (h : es.mode = CollaborationMode.active) :
    (es.applyOperation op).map (fun e => e.content) = applyC es.content op ∧
    ∀ es', es.applyOperation op = Except.ok es' →
      es'.mode = CollaborationMode.active := by
  unfold EditorState.applyOperation applyC
  rw [h]
  have hne : ¬ (CollaborationMode.active = CollaborationMode.disconnected) := by
    decide
  rw [if_neg hne]
  obtain ⟨oid, oty, opos, ocont, olen, ocid, ots, over⟩ := op
  cases oty <;> constructor <;> split_ifs <;>
    simp_all [Except.map]

/-- `applyPair` is the composition of the two content transformations. -/
lemma applyPair_bind (s : List Char) (f g : Operation) :
    applyPair s f g = (applyC s f).bind (fun t => applyC t g) := by
  unfold applyPair
  have h1 := applyOperation_content_map (EditorState.create s) f rfl
  cases hx : (EditorState.create s).applyOperation f with
  | error e =>
    have hc : applyC s f = Except.error e := by
      have h2 := h1.1
      rw [hx] at h2
      simpa [EditorState.create, Except.map] using h2.symm
    simp [hx, hc, Except.bind, Except.map]
  | ok es1 =>
    have hc : applyC s f = Except.ok es1.content := by
      have h2 := h1.1
      rw [hx] at h2
      simpa [EditorState.create, Except.map] using h2.symm
    have hm : es1.mode = CollaborationMode.active := h1.2 es1 hx
    have h2 := (applyOperation_content_map es1 g hm).1
    simp [hx, hc, Except.bind]
    exact h2

/-- `transform` dispatches on the operation kinds. -/
lemma transform_eq_ii (A B : Operation) (ha : A.type = OpType.insert)
    (hb : B.type = OpType.insert) :
    OTTransformer.transform A B = OTTransformer.transformInsertInsert A B := by
  unfold OTTransformer.transform
  rw [ha, hb]

lemma transform_eq_id (A B : Operation) (ha : A.type = OpType.insert)
    (hb : B.type = OpType.delete) :
    OTTransformer.transform A B = OTTransformer.transformInsertDelete A B := by
  unfold OTTransformer.transform
  rw [ha, hb]

lemma transform_eq_di (A B : Operation) (ha : A.type = OpType.delete)
    (hb : B.type = OpType.insert) :
    OTTransformer.transform A B = OTTransformer.transformDeleteInsert A B := by
  unfold OTTransformer.transform
  rw [ha, hb]

lemma transform_eq_dd (A B : Operation) (ha : A.type = OpType.delete)
    (hb : B.type = OpType.delete) :
    OTTransformer.transform A B = OTTransformer.transformDeleteDelete A B := by
  unfold OTTransformer.transform
  rw [ha, hb]

lemma tII_before (op against : Operation)
    (h : op.position < against.position) :
    OTTransformer.transformInsertInsert op against = op := by
  unfold OTTransformer.transformInsertInsert
  rw [if_pos h]

lemma tII_after (op against : Operation)
    (h : against.position < op.position) :
    OTTransformer.transformInsertInsert op against =
      { op with position := op.position + OTTransformer.insLen against } := by
  unfold OTTransformer.transformInsertInsert
  rw [if_neg (by omega), if_pos h]

lemma tII_tie_win (op against : Operation)
    (hp : op.position = against.position)
    (hc : op.clientId < against.clientId) :
    OTTransformer.transformInsertInsert op against = op := by
  unfold OTTransformer.transformInsertInsert
  rw [if_neg (by omega), if_neg (by omega), if_pos hc]

lemma tII_tie_lose (op against : Operation)
    (hp : op.position = against.position)
    (hc : ¬ op.clientId < against.clientId) :
    OTTransformer.transformInsertInsert op against =
      { op with position := op.position + OTTransformer.insLen against } := by
  unfold OTTransformer.transformInsertInsert
  rw [if_neg (by omega), if_neg (by omega), if_neg hc]

lemma tID_before (op against : Operation)
    (h : op.position ≤ against.position) :
    OTTransformer.transformInsertDelete op against = op := by
  unfold OTTransformer.transformInsertDelete
  rw [if_pos h]

lemma tID_after (op against : Operation)
    (h1 : against.position < op.position)
    (h2 : against.position + against.length ≤ op.position) :
    OTTransformer.transformInsertDelete op against =
      { op with position := op.position - against.length } := by
  unfold OTTransformer.transformInsertDelete
  rw [if_neg (by omega), if_pos h2]

lemma tDI_before (op against : Operation)
    (h : op.position + op.length ≤ against.position) :
    OTTransformer.transformDeleteInsert op against = op := by
  unfold OTTransformer.transformDeleteInsert
  rw [if_pos h]

lemma tDI_after (op against : Operation)
    (h1 : against.position < op.position + op.length)
    (h2 : against.position ≤ op.position) :
    OTTransformer.transformDeleteInsert op against =
      { op with position := op.position + OTTransformer.insLen against } := by
  unfold OTTransformer.transformDeleteInsert
  rw [if_neg (by omega), if_pos h2]

lemma tDD_before (op against : Operation)
    (h : op.position + op.length ≤ against.position) :
    OTTransformer.transformDeleteDelete op against = op := by
  unfold OTTransformer.transformDeleteDelete
  rw [if_pos h]

lemma tDD_after (op against : Operation)
    (h1 : against.position < op.position + op.length)
    (h2 : against.position + against.length ≤ op.position) :
    OTTransformer.transformDeleteDelete op against =
      { op with position := op.position - against.length } := by
  unfold OTTransformer.transformDeleteDelete
  rw [if_neg (by omega), if_pos h2]

lemma tDD_contains (op against : Operation)
    (h1 : against.position < op.position + op.length)
    (h2 : op.position < against.position + against.length)
    (h3 : op.position ≤ against.position)
    (h4 : against.position + against.length ≤ op.position + op.length) :
    OTTransformer.transformDeleteDelete op against =
      { op with length := op.length - against.length } := by
  unfold OTTransformer.transformDeleteDelete
  rw [if_neg (by omega), if_neg (by omega), if_pos ⟨h3, h4⟩]

lemma tDD_contained (op against : Operation)
    (h1 : against.position < op.position + op.length)
    (h2 : op.position < against.position + against.length)
    (h3 : ¬ (op.position ≤ against.position ∧
      against.position + against.length ≤ op.position + op.length))
    (h4 : against.position ≤ op.position)
    (h5 : op.position + op.length ≤ against.position + against.length) :
    OTTransformer.transformDeleteDelete op against =
      { op with position := against.position, length := 0 } := by
  unfold OTTransformer.transformDeleteDelete
  rw [if_neg (by omega), if_neg (by omega), if_neg (by omega), if_pos ⟨h4, h5⟩]

lemma tDD_left_overlap (op against : Operation)
    (h1 : op.position < against.position)
    (h2 : against.position < op.position + op.length)
    (h3 : op.position + op.length < against.position + against.length) :
    OTTransformer.transformDeleteDelete op against =
      { op with length :=
          op.length - (op.position + op.length - against.position) } := by
  unfold OTTransformer.transformDeleteDelete
  rw [if_neg (by omega), if_neg (by omega), if_neg (by omega),
    if_neg (by omega), if_pos ⟨h1, h2⟩]

lemma tDD_right_overlap (op against : Operation)
    (h1 : against.position < op.position)
    (h2 : op.position < against.position + against.length)
    (h3 : against.position + against.length < op.position + op.length) :
    OTTransformer.transformDeleteDelete op against =
      { op with
        position := against.position
        length := op.length -
          (against.position + against.length - op.position) } := by
  unfold OTTransformer.transformDeleteDelete
  rw [if_neg (by omega), if_neg (by omega), if_neg (by omega),
    if_neg (by omega), if_neg (by omega)]

/-- `transformInsertInsert` preserves kind and content, and shifts the
position right by at most the other insert's content length. -/
lemma tII_fields (op against : Operation) :
    (OTTransformer.transformInsertInsert op against).type = op.type ∧
    (OTTransformer.transformInsertInsert op against).content = op.content ∧
    op.position ≤ (OTTransformer.transformInsertInsert op against).position ∧
    (OTTransformer.transformInsertInsert op against).position ≤
      op.position + OTTransformer.insLen against := by
  unfold OTTransformer.transformInsertInsert
  split_ifs <;> simp

/-- TP1 for two concurrent inserts from different clients. -/
lemma tp1_case_ii (s : List Char) (A B : Operation)
    (hta : A.type = OpType.insert) (htb : B.type = OpType.insert)
    (hpa : A.position ≤ s.length) (hpb : B.position ≤ s.length)
    (hcl : A.clientId ≠ B.clientId) :
    (applyC s B).bind (fun t => applyC t (OTTransformer.transform A B)) =
    (applyC s A).bind (fun t => applyC t (OTTransformer.transform B A)) := by
  rw [transform_eq_ii A B hta htb, transform_eq_ii B A htb hta]
  have hfA := tII_fields A B
  have hfB := tII_fields B A
  by_cases hb : B.content.getD [] = []
  · rw [applyC_insert_err s B htb hpb hb]
    by_cases ha : A.content.getD [] = []
    · rw [applyC_insert_err s A hta hpa ha]
      rfl
    · obtain ⟨x, z, hs, hx⟩ := exists_split2 s A.position hpa
      rw [hs, applyC_insert_ok x z A hta hx.symm ha]
      simp only [Except.bind]
      rw [applyC_insert_err (x ++ A.content.getD [] ++ z) _ (hfB.1.trans htb)
        (by
          have h1 := hfB.2.2.2
          have h2 : (x ++ A.content.getD [] ++ z).length =
              s.length + (A.content.getD []).length := by
            rw [hs]; simp only [List.length_append]; omega
          unfold OTTransformer.insLen at h1
          omega)
        (by rw [hfB.2.1]; exact hb)]
  · by_cases ha : A.content.getD [] = []
    · rw [applyC_insert_err s A hta hpa ha]
      obtain ⟨y, w, hs, hy⟩ := exists_split2 s B.position hpb
      rw [hs, applyC_insert_ok y w B htb hy.symm hb]
      simp only [Except.bind]
      rw [applyC_insert_err (y ++ B.content.getD [] ++ w) _ (hfA.1.trans hta)
        (by
          have h1 := hfA.2.2.2
          have h2 : (y ++ B.content.getD [] ++ w).length =
              s.length + (B.content.getD []).length := by
            rw [hs]; simp only [List.length_append]; omega
          unfold OTTransformer.insLen at h1
          omega)
        (by rw [hfA.2.1]; exact ha)]
    · rcases lt_trichotomy A.position B.position with hlt | heq | hgt
      · rw [tII_before A B hlt, tII_after B A hlt]
        obtain ⟨x, m, z, hs, hx, hm⟩ :=
          exists_split3 s A.position B.position (le_of_lt hlt) hpb
        subst hs
        rw [applyC_insert_ok (x ++ m) z B htb
          (by simp [List.length_append]; omega) hb]
        simp only [Except.bind]
        rw [show x ++ m ++ B.content.getD [] ++ z =
          x ++ (m ++ B.content.getD [] ++ z) by simp [List.append_assoc]]
        rw [applyC_insert_ok x (m ++ B.content.getD [] ++ z) A hta hx.symm ha]
        rw [show x ++ m ++ z = x ++ (m ++ z) by simp [List.append_assoc]]
        rw [applyC_insert_ok x (m ++ z) A hta hx.symm ha]
        simp only [Except.bind]
        rw [show x ++ A.content.getD [] ++ (m ++ z) =
          (x ++ A.content.getD [] ++ m) ++ z by simp [List.append_assoc]]
        rw [applyC_insert_ok (x ++ A.content.getD [] ++ m) z _ (by simp [htb])
          (by simp [List.length_append, OTTransformer.insLen]; omega)
          (by simpa using hb)]
        simp [List.append_assoc]
      · rcases lt_trichotomy A.clientId B.clientId with hc | hc | hc
        · -- A wins the tie
          rw [tII_tie_win A B heq hc, tII_tie_lose B A heq.symm (by
            intro hlt2
            exact absurd (lt_trans hc hlt2) (lt_irrefl _))]
          obtain ⟨x, z, hs, hx⟩ := exists_split2 s A.position hpa
          subst hs
          rw [applyC_insert_ok x z B htb (by omega) hb]
          simp only [Except.bind]
          rw [show x ++ B.content.getD [] ++ z =
            x ++ (B.content.getD [] ++ z) by simp [List.append_assoc]]
          rw [applyC_insert_ok x (B.content.getD [] ++ z) A hta hx.symm ha]
          rw [applyC_insert_ok x z A hta hx.symm ha]
          simp only [Except.bind]
          rw [show x ++ A.content.getD [] ++ z =
            (x ++ A.content.getD []) ++ z by simp [List.append_assoc]]
          rw [applyC_insert_ok (x ++ A.content.getD []) z _ (by simp [htb])
            (by simp [List.length_append, OTTransformer.insLen]; omega)
            (by simpa using hb)]
          simp [List.append_assoc]
        · exact absurd hc hcl
        · -- B wins the tie
          rw [tII_tie_lose A B heq (by
            intro hlt2
            exact absurd (lt_trans hc hlt2) (lt_irrefl _)),
            tII_tie_win B A heq.symm hc]
          obtain ⟨x, z, hs, hx⟩ := exists_split2 s A.position hpa
          subst hs
          rw [applyC_insert_ok x z B htb (by omega) hb]
          simp only [Except.bind]
          rw [applyC_insert_ok (x ++ B.content.getD []) z _ (by simp [hta])
            (by simp [List.length_append, OTTransformer.insLen]; omega)
            (by simpa using ha)]
          rw [applyC_insert_ok x z A hta hx.symm ha]
          simp only [Except.bind]
          rw [show x ++ A.content.getD [] ++ z =
            x ++ (A.content.getD [] ++ z) by simp [List.append_assoc]]
          rw [applyC_insert_ok x (A.content.getD [] ++ z) B htb (by omega) hb]
          simp [List.append_assoc]
      · -- A.position > B.position
        rw [tII_after A B hgt, tII_before B A hgt]
        obtain ⟨x, m, z, hs, hx, hm⟩ :=
          exists_split3 s B.position A.position (le_of_lt hgt) hpa
        subst hs
        rw [show x ++ m ++ z = x ++ (m ++ z) by simp [List.append_assoc]]
        rw [applyC_insert_ok x (m ++ z) B htb hx.symm hb]
        simp only [Except.bind]
        rw [show x ++ B.content.getD [] ++ (m ++ z) =
          (x ++ B.content.getD [] ++ m) ++ z by simp [List.append_assoc]]
        rw [applyC_insert_ok (x ++ B.content.getD [] ++ m) z _ (by simp [hta])
          (by simp [List.length_append, OTTransformer.insLen]; omega)
          (by simpa using ha)]
        rw [show x ++ (m ++ z) = (x ++ m) ++ z by simp [List.append_assoc]]
        rw [applyC_insert_ok (x ++ m) z A hta
          (by simp [List.length_append]; omega) ha]
        simp only [Except.bind]
        rw [show x ++ m ++ A.content.getD [] ++ z =
          x ++ (m ++ A.content.getD [] ++ z) by simp [List.append_assoc]]
        rw [applyC_insert_ok x (m ++ A.content.getD [] ++ z) B htb hx.symm hb]
        simp [List.append_assoc]

/-- `applyC_insert_ok` stated for a content term given up to
reassociation. -/
lemma applyC_insert_at (T X rest : List Char) (op : Operation)
    (hT : T = X ++ rest) (hty : op.type = OpType.insert)
    (hpos : op.position = X.length) (hc : op.content.getD [] ≠ [])
    (R : List Char) (hR : X ++ op.content.getD [] ++ rest = R) :
    applyC T op = Except.ok R := by
  subst hT hR
  exact applyC_insert_ok X rest op hty hpos hc

/-- `applyC_delete_ok` stated for a content term given up to
reassociation. -/
lemma applyC_delete_at (T X Y rest : List Char) (op : Operation)
    (hT : T = X ++ Y ++ rest) (hty : op.type = OpType.delete)
    (hpos : op.position = X.length) (hlen : op.length = Y.length)
    (R : List Char) (hR : X ++ rest = R) :
    applyC T op = Except.ok R := by
  subst hT hR
  exact applyC_delete_ok X Y rest op hty hpos hlen

/-- TP1 for an insert against a concurrent delete, provided the insert does
not fall strictly inside the deleted range. -/
lemma tp1_case_id (s : List Char) (A B : Operation)
    (hta : A.type = OpType.insert) (htb : B.type = OpType.delete)
    (hpa : A.position ≤ s.length) (hpb : B.position + B.length ≤ s.length)
    (hni : ¬ (B.position < A.position ∧
      A.position < B.position + B.length)) :
    (applyC s B).bind (fun t => applyC t (OTTransformer.transform A B)) =
    (applyC s A).bind (fun t => applyC t (OTTransformer.transform B A)) := by
  rw [transform_eq_id A B hta htb, transform_eq_di B A htb hta]
  by_cases hP1 : A.position ≤ B.position
  · rw [tID_before A B hP1]
    by_cases hP1a : B.position + B.length ≤ A.position
    · -- p = q and lb = 0: both operations keep their shape
      rw [tDI_before B A hP1a]
      obtain ⟨x, z, hs, hx⟩ := exists_split2 s A.position hpa
      subst hs
      rw [applyC_delete_at (x ++ z) x [] z B (by simp) htb (by omega)
        (by simp only [List.length_nil]; omega) (x ++ z) rfl]
      simp only [Except.bind]
      by_cases ha : A.content.getD [] = []
      · rw [applyC_insert_err (x ++ z) A hta hpa ha]
      · rw [applyC_insert_at (x ++ z) x z A rfl hta hx.symm ha
          (x ++ A.content.getD [] ++ z) rfl]
        simp only [Except.bind]
        rw [applyC_delete_at (x ++ A.content.getD [] ++ z) x []
          (A.content.getD [] ++ z) B (by simp [List.append_assoc]) htb
          (by omega) (by simp only [List.length_nil]; omega)
          (x ++ A.content.getD [] ++ z) (by simp [List.append_assoc])]
    · rw [tDI_after B A (by omega) hP1]
      obtain ⟨x, m, y, z, hs, hx, hm, hy⟩ :=
        exists_split4 s A.position B.position (B.position + B.length)
          hP1 (by omega) hpb
      subst hs
      rw [applyC_delete_at (x ++ m ++ y ++ z) (x ++ m) y z B rfl htb
        (by simp [List.length_append]; omega) (by omega) (x ++ m ++ z) rfl]
      simp only [Except.bind]
      by_cases ha : A.content.getD [] = []
      · rw [applyC_insert_err (x ++ m ++ z) A hta
          (by simp [List.length_append] at hpa ⊢; omega) ha]
        rw [applyC_insert_err (x ++ m ++ y ++ z) A hta hpa ha]
      · rw [applyC_insert_at (x ++ m ++ z) x (m ++ z) A
          (by simp [List.append_assoc]) hta hx.symm ha
          (x ++ A.content.getD [] ++ m ++ z) (by simp [List.append_assoc])]
        rw [applyC_insert_at (x ++ m ++ y ++ z) x (m ++ y ++ z) A
          (by simp [List.append_assoc]) hta hx.symm ha
          (x ++ A.content.getD [] ++ m ++ y ++ z)
          (by simp [List.append_assoc])]
        simp only [Except.bind]
        rw [applyC_delete_at (x ++ A.content.getD [] ++ m ++ y ++ z)
          (x ++ A.content.getD [] ++ m) y z _ rfl (by simp [htb])
          (by simp [List.length_append, OTTransformer.insLen]; omega)
          (by simp; omega) (x ++ A.content.getD [] ++ m ++ z) rfl]
  · have hq : B.position + B.length ≤ A.position := by omega
    rw [tID_after A B (by omega) hq, tDI_before B A hq]
    obtain ⟨x, y, m, z, hs, hx, hy, hm⟩ :=
      exists_split4 s B.position (B.position + B.length) A.position
        (by omega) hq (by omega)
    subst hs
    rw [applyC_delete_at (x ++ y ++ m ++ z) x y (m ++ z)
      B (by simp [List.append_assoc]) htb hx.symm (by omega)
      (x ++ m ++ z) (by simp [List.append_assoc])]
    simp only [Except.bind]
    by_cases ha : A.content.getD [] = []
    · rw [applyC_insert_err (x ++ m ++ z) _ (by simp [hta])
        (by simp [List.length_append] at hpa ⊢; omega) (by simpa using ha)]
      rw [applyC_insert_err (x ++ y ++ m ++ z) A hta hpa ha]
    · rw [applyC_insert_at (x ++ m ++ z) (x ++ m) z _
        (by simp [List.append_assoc]) (by simp [hta])
        (by simp [List.length_append]; omega) (by simpa using ha)
        (x ++ m ++ A.content.getD [] ++ z) (by simp [List.append_assoc])]
      rw [applyC_insert_at (x ++ y ++ m ++ z) (x ++ y ++ m) z A
        (by simp [List.append_assoc]) hta
        (by simp [List.length_append]; omega) ha
        (x ++ y ++ m ++ A.content.getD [] ++ z)
        (by simp [List.append_assoc])]
      simp only [Except.bind]
      rw [applyC_delete_at (x ++ y ++ m ++ A.content.getD [] ++ z) x y
        (m ++ A.content.getD [] ++ z) B (by simp [List.append_assoc]) htb
        hx.symm (by omega) (x ++ m ++ A.content.getD [] ++ z)
        (by simp [List.append_assoc])]

/-- TP1 for two concurrent deletes (all overlap configurations). -/
lemma tp1_case_dd (s : List Char) (A B : Operation)
    (hta : A.type = OpType.delete) (htb : B.type = OpType.delete)
    (hpa : A.position + A.length ≤ s.length)
    (hpb : B.position + B.length ≤ s.length) :
    (applyC s B).bind (fun t => applyC t (OTTransformer.transform A B)) =
    (applyC s A).bind (fun t => applyC t (OTTransformer.transform B A)) := by
  rw [transform_eq_dd A B hta htb, transform_eq_dd B A htb hta]
  by_cases hT1 : A.position + A.length ≤ B.position
  · rw [tDD_before A B hT1]
    by_cases hT1a : B.position + B.length ≤ A.position
    · -- degenerate: both zero-length at the same position
      rw [tDD_before B A hT1a]
      obtain ⟨x, z, hs, hx⟩ := exists_split2 s A.position (by omega)
      subst hs
      rw [applyC_delete_at (x ++ z) x [] z B (by simp) htb (by omega)
        (by simp only [List.length_nil]; omega) (x ++ z) rfl]
      simp only [Except.bind]
      rw [applyC_delete_at (x ++ z) x [] z A (by simp) hta hx.symm
        (by simp only [List.length_nil]; omega) (x ++ z) rfl]
      simp only [Except.bind]
      rw [applyC_delete_at (x ++ z) x [] z B (by simp) htb (by omega)
        (by simp only [List.length_nil]; omega) (x ++ z) rfl]
    · rw [tDD_after B A (by omega) hT1]
      obtain ⟨x, y, m, w, z, hs, hx, hy, hm, hw⟩ :=
        exists_split5 s A.position (A.position + A.length) B.position
          (B.position + B.length) (by omega) hT1 (by omega) hpb
      subst hs
      rw [applyC_delete_at (x ++ y ++ m ++ w ++ z) (x ++ y ++ m) w z B rfl htb
        (by simp [List.length_append]; omega) (by omega)
        (x ++ y ++ m ++ z) rfl]
      simp only [Except.bind]
      rw [applyC_delete_at (x ++ y ++ m ++ z) x y (m ++ z) A
        (by simp [List.append_assoc]) hta hx.symm (by omega)
        (x ++ m ++ z) (by simp [List.append_assoc])]
      rw [applyC_delete_at (x ++ y ++ m ++ w ++ z) x y (m ++ w ++ z) A
        (by simp [List.append_assoc]) hta hx.symm (by omega)
        (x ++ m ++ w ++ z) (by simp [List.append_assoc])]
      simp only [Except.bind]
      rw [applyC_delete_at (x ++ m ++ w ++ z) (x ++ m) w z _ rfl (by simp [htb])
        (by simp [List.length_append]; omega) (by simp; omega)
        (x ++ m ++ z) rfl]
  · by_cases hT2 : B.position + B.length ≤ A.position
    · rw [tDD_after A B (by omega) hT2, tDD_before B A hT2]
      obtain ⟨x, w, m, y, z, hs, hx, hw, hm, hy⟩ :=
        exists_split5 s B.position (B.position + B.length) A.position
          (A.position + A.length) (by omega) hT2 (by omega) hpa
      subst hs
      rw [applyC_delete_at (x ++ w ++ m ++ y ++ z) x w (m ++ y ++ z) B
        (by simp [List.append_assoc]) htb hx.symm (by omega)
        (x ++ m ++ y ++ z) (by simp [List.append_assoc])]
      simp only [Except.bind]
      rw [applyC_delete_at (x ++ m ++ y ++ z) (x ++ m) y z _ rfl (by simp [hta])
        (by simp [List.length_append]; omega) (by simp; omega)
        (x ++ m ++ z) rfl]
      rw [applyC_delete_at (x ++ w ++ m ++ y ++ z) (x ++ w ++ m) y z A rfl hta
        (by simp [List.length_append]; omega) (by omega)
        (x ++ w ++ m ++ z) rfl]
      simp only [Except.bind]
      rw [applyC_delete_at (x ++ w ++ m ++ z) x w (m ++ z) B
        (by simp [List.append_assoc]) htb hx.symm (by omega)
        (x ++ m ++ z) (by simp [List.append_assoc])]
    · -- overlapping ranges
      by_cases hc1 : A.position ≤ B.position
      · by_cases hc2 : B.position + B.length ≤ A.position + A.length
        · -- A contains B
          rw [tDD_contains A B (by omega) (by omega) hc1 hc2]
          obtain ⟨x, m, w, y, z, hs, hx, hm, hw, hy⟩ :=
            exists_split5 s A.position B.position (B.position + B.length)
              (A.position + A.length) hc1 (by omega) hc2 hpa
          subst hs
          rw [applyC_delete_at (x ++ m ++ w ++ y ++ z) (x ++ m) w (y ++ z) B
            (by simp [List.append_assoc]) htb
            (by simp [List.length_append]; omega) (by omega)
            (x ++ m ++ y ++ z) (by simp [List.append_assoc])]
          simp only [Except.bind]
          rw [applyC_delete_at (x ++ m ++ y ++ z) x (m ++ y) z _
            (by simp [List.append_assoc]) (by simp [hta]) (by simp; omega)
            (by simp [List.length_append]; omega) (x ++ z) rfl]
          rw [applyC_delete_at (x ++ m ++ w ++ y ++ z) x (m ++ w ++ y) z A
            (by simp [List.append_assoc]) hta hx.symm
            (by simp [List.length_append]; omega) (x ++ z) rfl]
          simp only [Except.bind]
          by_cases hB3 : B.position ≤ A.position ∧
              A.position + A.length ≤ B.position + B.length
          · rw [tDD_contains B A (by omega) (by omega) hB3.1 hB3.2]
            rw [applyC_delete_at (x ++ z) x [] z _ (by simp) (by simp [htb])
              (by simp; omega)
              (by simp only [List.length_nil]
                  show B.length - A.length = 0
                  omega)
              (x ++ z) rfl]
          · rw [tDD_contained B A (by omega) (by omega) hB3 hc1 hc2]
            rw [applyC_delete_at (x ++ z) x [] z _ (by simp) (by simp [htb])
              (by simp; omega) (by simp) (x ++ z) rfl]
        · rcases eq_or_lt_of_le hc1 with heq | hlt
          · -- A contained in B at the same start
            rw [tDD_contained A B (by omega) (by omega) (by omega) (by omega)
              (by omega)]
            rw [tDD_contains B A (by omega) (by omega) (by omega) (by omega)]
            obtain ⟨x, y, w, z, hs, hx, hy, hw⟩ :=
              exists_split4 s A.position (A.position + A.length)
                (B.position + B.length) (by omega) (by omega) hpb
            subst hs
            rw [applyC_delete_at (x ++ y ++ w ++ z) x (y ++ w) z B
              (by simp [List.append_assoc]) htb (by omega)
              (by simp [List.length_append]; omega) (x ++ z) rfl]
            simp only [Except.bind]
            rw [applyC_delete_at (x ++ z) x [] z _ (by simp) (by simp [hta])
              (by simp; omega) (by simp) (x ++ z) rfl]
            rw [applyC_delete_at (x ++ y ++ w ++ z) x y (w ++ z) A
              (by simp [List.append_assoc]) hta hx.symm (by omega)
              (x ++ w ++ z) (by simp [List.append_assoc])]
            simp only [Except.bind]
            rw [applyC_delete_at (x ++ w ++ z) x w z _ rfl (by simp [htb])
              (by simp; omega) (by simp [List.length_append]; omega)
              (x ++ z) rfl]
          · -- left overlap: A starts first, ends inside B
            rw [tDD_left_overlap A B hlt (by omega) (by omega)]
            rw [tDD_right_overlap B A hlt (by omega) (by omega)]
            obtain ⟨x, m, y, w, z, hs, hx, hm, hy, hw⟩ :=
              exists_split5 s A.position B.position (A.position + A.length)
                (B.position + B.length) (le_of_lt hlt) (by omega) (by omega)
                hpb
            subst hs
            rw [applyC_delete_at (x ++ m ++ y ++ w ++ z) (x ++ m) (y ++ w) z B
              (by simp [List.append_assoc]) htb
              (by simp [List.length_append]; omega)
              (by simp [List.length_append]; omega)
              (x ++ m ++ z) rfl]
            simp only [Except.bind]
            rw [applyC_delete_at (x ++ m ++ z) x m z _
              (by simp [List.append_assoc]) (by simp [hta]) (by simp; omega)
              (by simp; omega) (x ++ z) rfl]
            rw [applyC_delete_at (x ++ m ++ y ++ w ++ z) x (m ++ y) (w ++ z) A
              (by simp [List.append_assoc]) hta hx.symm
              (by simp [List.length_append]; omega)
              (x ++ w ++ z) (by simp [List.append_assoc])]
            simp only [Except.bind]
            rw [applyC_delete_at (x ++ w ++ z) x w z _ rfl (by simp [htb])
              (by simp; omega) (by simp; omega) (x ++ z) rfl]
      · by_cases hc3 : A.position + A.length ≤ B.position + B.length
        · -- A contained in B, starting strictly inside
          rw [tDD_contained A B (by omega) (by omega) (by omega) (by omega)
            hc3]
          rw [tDD_contains B A (by omega) (by omega) (by omega) hc3]
          obtain ⟨x, m, y, w, z, hs, hx, hm, hy, hw⟩ :=
            exists_split5 s B.position A.position (A.position + A.length)
              (B.position + B.length) (by omega) (by omega) hc3 hpb
          subst hs
          rw [applyC_delete_at (x ++ m ++ y ++ w ++ z) x (m ++ y ++ w) z B
            (by simp [List.append_assoc]) htb hx.symm
            (by simp [List.length_append]; omega) (x ++ z) rfl]
          simp only [Except.bind]
          rw [applyC_delete_at (x ++ z) x [] z _ (by simp) (by simp [hta])
            (by simp; omega) (by simp) (x ++ z) rfl]
          rw [applyC_delete_at (x ++ m ++ y ++ w ++ z) (x ++ m) y (w ++ z) A
            (by simp [List.append_assoc]) hta
            (by simp [List.length_append]; omega) (by omega)
            (x ++ m ++ w ++ z) (by simp [List.append_assoc])]
          simp only [Except.bind]
          rw [applyC_delete_at (x ++ m ++ w ++ z) x (m ++ w) z _
            (by simp [List.append_assoc]) (by simp [htb]) (by simp; omega)
            (by simp [List.length_append]; omega) (x ++ z) rfl]
        · -- right overlap: A starts inside B, ends after it
          rw [tDD_right_overlap A B (by omega) (by omega) (by omega)]
          rw [tDD_left_overlap B A (by omega) (by omega) (by omega)]
          obtain ⟨x, m, w, y, z, hs, hx, hm, hw, hy⟩ :=
            exists_split5 s B.position A.position (B.position + B.length)
              (A.position + A.length) (by omega) (by omega) (by omega) hpa
          subst hs
          rw [applyC_delete_at (x ++ m ++ w ++ y ++ z) x (m ++ w) (y ++ z) B
            (by simp [List.append_assoc]) htb hx.symm
            (by simp [List.length_append]; omega)
            (x ++ y ++ z) (by simp [List.append_assoc])]
          simp only [Except.bind]
          rw [applyC_delete_at (x ++ y ++ z) x y z _ rfl (by simp [hta])
            (by simp; omega) (by simp; omega) (x ++ z) rfl]
          rw [applyC_delete_at (x ++ m ++ w ++ y ++ z) (x ++ m) (w ++ y) z A
            (by simp [List.append_assoc]) hta
            (by simp [List.length_append]; omega)
            (by simp [List.length_append]; omega) (x ++ m ++ z) rfl]
          simp only [Except.bind]
          rw [applyC_delete_at (x ++ m ++ z) x m z _ rfl (by simp [htb])
            (by simp; omega) (by simp; omega) (x ++ z) rfl]

/-- C1 amended: TP1 convergence holds for every initial content and every
pair of in-bounds operations from different clients at the same base
version, provided neither operation is an insert positioned strictly
inside the other's delete range — the configuration the counterexample
shows divergent. -/
theorem tp1_amended (s : List Char) (A B : Operation)
    (hA : inBounds s A) (hB : inBounds s B)
    (hcl : A.clientId ≠ B.clientId)
    (hver : A.version = B.version)
    (hAB : ¬ insideDelete A B) (hBA : ¬ insideDelete B A) :
    applyPair s B (OTTransformer.transform A B) =
    applyPair s A (OTTransformer.transform B A) := by
  rw [applyPair_bind, applyPair_bind]
  cases hta : A.type <;> cases htb : B.type
  · exact tp1_case_ii s A B hta htb (by simpa [inBounds, hta] using hA)
      (by simpa [inBounds, htb] using hB) hcl
  · exact tp1_case_id s A B hta htb (by simpa [inBounds, hta] using hA)
      (by simpa [inBounds, htb] using hB)
      (fun h => hAB ⟨hta, htb, h.1, h.2⟩)
  · exact (tp1_case_id s B A htb hta (by simpa [inBounds, htb] using hB)
      (by simpa [inBounds, hta] using hA)
      (fun h => hBA ⟨htb, hta, h.1, h.2⟩)).symm
  · exact tp1_case_dd s A B hta htb (by simpa [inBounds, hta] using hA)
      (by simpa [inBounds, htb] using hB)

/-- C1 witness: the amended TP1 theorem evaluated on scenario S3's tied
inserts over `"Hello"`. -/
theorem tp1_amended_witness :
    inBounds "Hello".data s3InsertA ∧ inBounds "Hello".data s3InsertB ∧
    s3InsertA.clientId ≠ s3InsertB.clientId ∧
    applyPair "Hello".data s3InsertB
        (OTTransformer.transform s3InsertA s3InsertB) =
      applyPair "Hello".data s3InsertA
        (OTTransformer.transform s3InsertB s3InsertA) :=
  ⟨by decide, by decide, by decide,
    tp1_amended "Hello".data s3InsertA s3InsertB (by decide) (by decide)
      (by decide) (by decide) (by decide) (by decide)⟩
